import Mathlib

/-!
Shallow embedding of the Ritual Pacing State Machine of the
`Oracle-of-Delphi-Chatbot` repository (`src/backend/agent/tools.py` and
`src/backend/agent/graph.py`), together with theorems settling the spec
claims about it.

Modelling conventions:
* Python `float` time quantities (delays, elapsed times) are modelled as `ℚ`.
* Wall-clock timestamps (`time.time()`) are modelled as an explicit `Nat`
  argument threaded into each operation.
* `random.uniform(a, b)` is modelled as `a + (b - a) * u` for a fresh draw
  `u ∈ [0, 1)` passed in explicitly.
* Raising an exception is modelled with `Except String`; in-place mutation is
  modelled by returning the updated machine/registry.
* A listener callback is a pure function that may fail
  (`RitualStateMachine → RitualStateEvent → Except String Unit`); the
  `try/except` loop of `_notify_listeners` becomes a `List.map` collecting
  each callback's outcome, so no failure propagates or stops later callbacks.
-/

namespace Oracle

/-- The five canonical ritual states (`RitualState` enum, tools.py:13-19). -/
inductive RitualState where
  | IDLE
  | INVOKED
  | CONTEMPLATING
  | REVEALING
  | COMPLETE
deriving DecidableEq, Repr, Fintype

/-- Embeds `RitualState.value` — the string value of each enum member. -/
def RitualState.value : RitualState → String
  | .IDLE => "IDLE"
  | .INVOKED => "INVOKED"
  | .CONTEMPLATING => "CONTEMPLATING"
  | .REVEALING => "REVEALING"
  | .COMPLETE => "COMPLETE"

/-- The `VALID_TRANSITIONS` dict (tools.py:27-33), total over the five states. -/
def VALID_TRANSITIONS : RitualState → List RitualState
  | .IDLE => [.INVOKED]
  | .INVOKED => [.CONTEMPLATING]
  | .CONTEMPLATING => [.REVEALING]
  | .REVEALING => [.COMPLETE]
  | .COMPLETE => [.IDLE, .INVOKED]

/-- Embeds `TIMING_CONFIG["contemplation_min"]` (tools.py:36). -/
def contemplation_min : ℚ := 1.5

/-- Embeds `TIMING_CONFIG["contemplation_max"]` (tools.py:37). -/
def contemplation_max : ℚ := 4.0

/-- A value stored in an event payload dict. -/
inductive PayloadVal where
  | bool (b : Bool)
  | str (s : String)
deriving DecidableEq, Repr

/-- A payload dict (`Dict[str, Any]`), as an association list. -/
def Payload := List (String × PayloadVal)
deriving DecidableEq, Repr

/-- Embeds `RitualStateEvent` (tools.py:43-49): the record emitted on transitions. -/
structure RitualStateEvent where
  state : RitualState
  session_id : String
  timestamp : Nat
  payload : Option Payload := none
deriving DecidableEq, Repr

/-- The mutable state of a machine observable by a listener callback at the
moment it is invoked (a Python callback can close over the machine and read
`current_state` / `state_history`). -/
structure MachineView where
  current_state : RitualState
  state_history : List RitualStateEvent
deriving DecidableEq, Repr

/-- A listener callback (`Callable[[RitualStateEvent], None]`): it receives
the freshly created event and may fail; the `MachineView` argument models
what the callback observes of the machine at invocation time. -/
def Listener := MachineView → RitualStateEvent → Except String Unit

/-- Embeds `RitualStateMachine` (tools.py:60-66): per-session FSM state. -/
structure RitualStateMachine where
  session_id : String
  current_state : RitualState := .IDLE
  state_history : List RitualStateEvent := []
  listeners : List Listener := []

/-- Construction of a `RitualStateMachine` (tools.py:60-69).  `__post_init__`
only calls `_log_transition` (a `logger.info`), so no event is appended to
`state_history`: a fresh machine has an empty history. -/
def mkRitualStateMachine (sid : String) : RitualStateMachine :=
  { session_id := sid, current_state := .IDLE, state_history := [], listeners := [] }

namespace RitualStateMachine

/-- The observable snapshot of a machine handed to listener callbacks. -/
def view (m : RitualStateMachine) : MachineView :=
  { current_state := m.current_state, state_history := m.state_history }

/-- Embeds `_notify_listeners` (tools.py:115-120): each listener is called with the
event inside a `try/except`, so every callback runs exactly once, in
registration order, and a failure is only logged.  The view argument is of
the post-update machine, reflecting that callbacks run after the state and
history updates. -/
def notify_listeners (m : RitualStateMachine) (event : RitualStateEvent) :
    List (Except String Unit) :=
  m.listeners.map (fun l => l m.view event)

/-- Embeds `transition` (tools.py:71-89).  On an edge absent from
`VALID_TRANSITIONS`, raises `RitualStateError` with a message naming source
and target; otherwise updates the state, appends the event, notifies the
listeners and returns the event (together with the updated machine and the
listener outcomes). -/
def transition (m : RitualStateMachine) (new_state : RitualState)
    (payload : Option Payload) (now : Nat) :
    Except String (RitualStateMachine × RitualStateEvent × List (Except String Unit)) :=
  if new_state ∈ VALID_TRANSITIONS m.current_state then
    let event : RitualStateEvent :=
      { state := new_state, session_id := m.session_id, timestamp := now,
        payload := payload }
    let m' : RitualStateMachine :=
      { m with current_state := new_state,
               state_history := m.state_history ++ [event] }
    .ok (m', event, m'.notify_listeners event)
  else
    .error ("Invalid: " ++ m.current_state.value ++ " → " ++ new_state.value)

/-- Embeds `get_contemplation_delay` (tools.py:91-93): `random.uniform(min, max)`,
modelled as `min + (max - min) * u` for the fresh uniform draw `u ∈ [0, 1)`. -/
def get_contemplation_delay (u : ℚ) : ℚ :=
  contemplation_min + (contemplation_max - contemplation_min) * u

/-- Embeds `force_reset` (tools.py:95-109): unconditionally sets the state to `IDLE`,
appends an event with payload `{"forced": True}` and notifies listeners. -/
def force_reset (m : RitualStateMachine) (now : Nat) :
    RitualStateMachine × RitualStateEvent × List (Except String Unit) :=
  let event : RitualStateEvent :=
    { state := .IDLE, session_id := m.session_id, timestamp := now,
      payload := some [("forced", PayloadVal.bool true)] }
  let m' : RitualStateMachine :=
    { m with current_state := .IDLE,
             state_history := m.state_history ++ [event] }
  (m', event, m'.notify_listeners event)

/-- Embeds `add_listener` (tools.py:111-113). -/
def add_listener (m : RitualStateMachine) (callback : Listener) :
    RitualStateMachine :=
  { m with listeners := m.listeners ++ [callback] }

/-- Embeds `is_accepting_input` (tools.py:125-127). -/
def is_accepting_input (m : RitualStateMachine) : Bool :=
  m.current_state = RitualState.IDLE ∨ m.current_state = RitualState.COMPLETE

/-- The dict returned by `get_state_info` (tools.py:129-136). -/
structure StateInfo where
  current_state : String
  session_id : String
  accepting_input : Bool
  history_length : Nat
deriving DecidableEq, Repr

/-- Embeds `get_state_info` (tools.py:129-136). -/
def get_state_info (m : RitualStateMachine) : StateInfo :=
  { current_state := m.current_state.value,
    session_id := m.session_id,
    accepting_input := m.is_accepting_input,
    history_length := m.state_history.length }

end RitualStateMachine

/-- The process-wide `_ritual_sessions` dict (tools.py:139), as a map from
session id to machine. -/
def Registry := String → Option RitualStateMachine

/-- Store a machine under a session id (dict assignment / in-place mutation
becoming visible through the shared dict). -/
def Registry.store (reg : Registry) (sid : String) (m : RitualStateMachine) :
    Registry :=
  fun id => if id = sid then some m else reg id

/-- Embeds `get_ritual_machine` (tools.py:142-146): look up the machine for the
session, constructing and storing a fresh one on first use. -/
def get_ritual_machine (reg : Registry) (sid : String) :
    RitualStateMachine × Registry :=
  match reg sid with
  | some m => (m, reg)
  | none =>
    let m := mkRitualStateMachine sid
    (m, reg.store sid m)

/-- Embeds `clear_ritual_session` (tools.py:149-152). -/
def clear_ritual_session (reg : Registry) (sid : String) : Registry :=
  fun id => if id = sid then none else reg id

/-- The outcome of one `chat` call (graph.py:65-91): the final machine for the
session, the artificial sleep performed (`time.sleep(remaining_delay)`,
0 when skipped or never reached), and the returned response or the
propagated exception. -/
structure ChatOutcome where
  machine : RitualStateMachine
  slept : ℚ
  result : Except String String

/-- The body of `chat` (graph.py:65-91) after the machine has been fetched
from the registry.  `respond` is the outcome of the external call
`app.invoke(...)` (graph.py:79), `u` the fresh uniform draw behind
`get_contemplation_delay`, `llm_time` the measured elapsed time of the
external call, and `now` the wall clock for event timestamps.  Exceptions
short-circuit, leaving the machine as mutated so far. -/
def chatSteps (m0 : RitualStateMachine) (respond : Except String String)
    (u llm_time : ℚ) (now : Nat) : ChatOutcome :=
  let m1 := if m0.is_accepting_input then m0 else (m0.force_reset now).1
  match m1.transition .INVOKED none now with
  | .error e => { machine := m1, slept := 0, result := .error e }
  | .ok r1 =>
    match r1.1.transition .CONTEMPLATING none now with
    | .error e => { machine := r1.1, slept := 0, result := .error e }
    | .ok r2 =>
      let m3 := r2.1
      let contemplation_delay := RitualStateMachine.get_contemplation_delay u
      match respond with
      | .error e => { machine := m3, slept := 0, result := .error e }
      | .ok response =>
        let remaining_delay := contemplation_delay - llm_time
        let slept := if remaining_delay > 0 then remaining_delay else 0
        match m3.transition .REVEALING
            (some [("response", PayloadVal.str response)]) now with
        | .error e => { machine := m3, slept := slept, result := .error e }
        | .ok r3 =>
          match r3.1.transition .COMPLETE none now with
          | .error e => { machine := r3.1, slept := slept, result := .error e }
          | .ok r4 => { machine := r4.1, slept := slept, result := .ok response }

/-- Embeds `chat` (graph.py:65-91): fetch the session machine from the shared
registry, run the ritual around the external call, and return the final
registry together with the sleep performed and the result or propagated
exception.  The machine's mutations are visible in the registry whether or
not the call succeeded (in Python the dict holds the mutated object). -/
def chat (reg : Registry) (sid : String) (respond : Except String String)
    (u llm_time : ℚ) (now : Nat) :
    Registry × ℚ × Except String String :=
  let p := get_ritual_machine reg sid
  let out := chatSteps p.1 respond u llm_time now
  (p.2.store sid out.machine, out.slept, out.result)

/-- Runs a sequence of `transition` calls (target, payload, timestamp) on a
machine, stopping with `none` as soon as one raises. -/
def runTransitions (m : RitualStateMachine) :
    List (RitualState × Option Payload × Nat) → Option RitualStateMachine
  | [] => some m
  | s :: rest =>
    match m.transition s.1 s.2.1 s.2.2 with
    | .error _ => none
    | .ok r => runTransitions r.1 rest

/-- The machines reachable through the public API: construction, successful
transitions, forced resets and listener registration. -/
inductive Reachable : RitualStateMachine → Prop where
  | init (sid : String) : Reachable (mkRitualStateMachine sid)
  | step (m : RitualStateMachine) (t : RitualState) (p : Option Payload)
      (now : Nat) (r : RitualStateMachine × RitualStateEvent × List (Except String Unit)) :
      Reachable m → m.transition t p now = .ok r → Reachable r.1
  | reset (m : RitualStateMachine) (now : Nat) :
      Reachable m → Reachable (m.force_reset now).1
  | listen (m : RitualStateMachine) (cb : Listener) :
      Reachable m → Reachable (m.add_listener cb)

/-- A listener that raises on every invocation (for concrete evaluations). -/
def badListener : Listener := fun _ _ => .error "boom"

/-- A well-behaved listener (for concrete evaluations). -/
def goodListener : Listener := fun _ _ => .ok ()

/-- A concrete fresh machine with a failing listener registered before a
well-behaved one. -/
def demoMachine : RitualStateMachine :=
  (mkRitualStateMachine "s").add_listener badListener |>.add_listener goodListener

/-- The registry with no sessions (the initial `_ritual_sessions` dict). -/
def emptyRegistry : Registry := fun _ => none

/-- A concrete two-step run driving a fresh machine to `CONTEMPLATING`. -/
def demoSteps : List (RitualState × Option Payload × Nat) :=
  [(.INVOKED, none, 1), (.CONTEMPLATING, none, 2)]

/-- The machine produced by running `demoSteps` on a fresh machine. -/
def demoRunResult : RitualStateMachine :=
  { session_id := "w1", current_state := .CONTEMPLATING,
    state_history := [⟨.INVOKED, "w1", 1, none⟩, ⟨.CONTEMPLATING, "w1", 2, none⟩],
    listeners := [] }

/-- A successful `transition` on a legal edge returns exactly the updated
machine, the fresh event, and the listener outcomes computed on the updated
machine. -/
theorem transition_ok (m : RitualStateMachine) (t : RitualState)
    (p : Option Payload) (now : Nat) (h : t ∈ VALID_TRANSITIONS m.current_state) :
    m.transition t p now = .ok
      ({ m with
          current_state := t,
          state_history := m.state_history ++ [⟨t, m.session_id, now, p⟩] },
       ⟨t, m.session_id, now, p⟩,
       RitualStateMachine.notify_listeners
         { m with
            current_state := t,
            state_history := m.state_history ++ [⟨t, m.session_id, now, p⟩] }
         ⟨t, m.session_id, now, p⟩) := by
  simp [RitualStateMachine.transition, h]

/-- A `transition` on an edge absent from the table raises `RitualStateError`
with a message naming the source and target states. -/
theorem transition_error (m : RitualStateMachine) (t : RitualState)
    (p : Option Payload) (now : Nat) (h : t ∉ VALID_TRANSITIONS m.current_state) :
    m.transition t p now =
      .error ("Invalid: " ++ m.current_state.value ++ " → " ++ t.value) := by
  simp [RitualStateMachine.transition, h]

/-- Inversion of a successful `transition`. -/
theorem transition_ok_inv (m : RitualStateMachine) (t : RitualState)
    (p : Option Payload) (now : Nat)
    (r : RitualStateMachine × RitualStateEvent × List (Except String Unit))
    (h : m.transition t p now = .ok r) :
    r.1 = { m with
            current_state := t,
            state_history := m.state_history ++ [⟨t, m.session_id, now, p⟩] } ∧
    r.2.1 = (⟨t, m.session_id, now, p⟩ : RitualStateEvent) ∧
    t ∈ VALID_TRANSITIONS m.current_state := by
  by_cases hm : t ∈ VALID_TRANSITIONS m.current_state
  · rw [transition_ok m t p now hm] at h
    injection h with h2
    subst h2
    exact ⟨rfl, rfl, hm⟩
  · rw [transition_error m t p now hm] at h
    cases h

/-- C2: for every machine state and every target state not in
`allowed_next` of it, `transition` fails with a `RitualStateError` whose
message names the attempted source and target states, and returns no
updated machine, no event and no listener outcomes — so in particular
`current_state` and `state_history` are exactly as before the call and no
listener is invoked. -/
theorem claim_C2 (m : RitualStateMachine) (t : RitualState)
    (p : Option Payload) (now : Nat)
    (h : t ∉ VALID_TRANSITIONS m.current_state) :
    m.transition t p now =
      .error ("Invalid: " ++ m.current_state.value ++ " → " ++ t.value) ∧
    ∀ r, m.transition t p now ≠ .ok r := by
  refine ⟨transition_error m t p now h, fun r hr => ?_⟩
  rw [transition_error m t p now h] at hr
  cases hr

/-- Witness for C2 at a concrete input: `REVEALING` is not reachable from a
fresh machine in `IDLE`. -/
theorem claim_C2_witness :
    (RitualState.REVEALING ∉
      VALID_TRANSITIONS (mkRitualStateMachine "s").current_state) ∧
    ((mkRitualStateMachine "s").transition .REVEALING none 0 =
      .error ("Invalid: " ++ (mkRitualStateMachine "s").current_state.value ++
        " → " ++ RitualState.REVEALING.value) ∧
     ∀ r, (mkRitualStateMachine "s").transition .REVEALING none 0 ≠ .ok r) :=
  ⟨by decide, claim_C2 (mkRitualStateMachine "s") .REVEALING none 0 (by decide)⟩

/-- C3: the transition table is total over the five ritual states with a
non-empty successor list for each; `COMPLETE` is the only state with two
outgoing edges, exactly `[IDLE, INVOKED]`, and every other state has exactly
the single listed successor. -/
theorem claim_C3 :
    (∀ s, VALID_TRANSITIONS s ≠ []) ∧
    VALID_TRANSITIONS .COMPLETE = [.IDLE, .INVOKED] ∧
    (∀ s, s ≠ RitualState.COMPLETE → (VALID_TRANSITIONS s).length = 1) ∧
    VALID_TRANSITIONS .IDLE = [.INVOKED] ∧
    VALID_TRANSITIONS .INVOKED = [.CONTEMPLATING] ∧
    VALID_TRANSITIONS .CONTEMPLATING = [.REVEALING] ∧
    VALID_TRANSITIONS .REVEALING = [.COMPLETE] := by
  refine ⟨?_, rfl, ?_, rfl, rfl, rfl, rfl⟩ <;> decide

/-- Witness for C3 at a concrete state: `IDLE` has a non-empty successor
list of length one. -/
theorem claim_C3_witness :
    VALID_TRANSITIONS .IDLE ≠ [] ∧ (VALID_TRANSITIONS .IDLE).length = 1 :=
  ⟨claim_C3.1 .IDLE, claim_C3.2.2.1 .IDLE (by decide)⟩

/-- C4: from every machine state, `force_reset` succeeds (it is total and
raises nothing), sets `current_state` to `IDLE` regardless of the transition
table, appends exactly one event whose payload marks it as forced, and
notifies every registered listener in order with that event. -/
theorem claim_C4 (m : RitualStateMachine) (now : Nat) :
    (m.force_reset now).1.current_state = .IDLE ∧
    (m.force_reset now).1.state_history =
      m.state_history ++ [(m.force_reset now).2.1] ∧
    (m.force_reset now).2.1 =
      { state := .IDLE, session_id := m.session_id, timestamp := now,
        payload := some [("forced", PayloadVal.bool true)] } ∧
    (m.force_reset now).2.2 =
      m.listeners.map
        (fun l => l (m.force_reset now).1.view (m.force_reset now).2.1) :=
  ⟨rfl, rfl, rfl, rfl⟩

/-- C8: every contemplation delay drawn with a fresh uniform `u ∈ [0, 1)`
lies in the configured `[contemplation_min, contemplation_max]` interval
(defaults 1.5 and 4.0), and the draw is a strictly monotone function of the
fresh uniform sample, so distinct draws give distinct delays (no
memoization, and the uniformity of `u` is preserved by the affine map). -/
theorem claim_C8 (u v : ℚ) (h0 : 0 ≤ u) (h1 : u < 1) (huv : u < v) :
    contemplation_min ≤ RitualStateMachine.get_contemplation_delay u ∧
    RitualStateMachine.get_contemplation_delay u ≤ contemplation_max ∧
    RitualStateMachine.get_contemplation_delay u <
      RitualStateMachine.get_contemplation_delay v := by
  unfold RitualStateMachine.get_contemplation_delay contemplation_min contemplation_max
  norm_num
  refine ⟨by nlinarith, by nlinarith, by nlinarith⟩

/-- Witness for C8 at the concrete draws `u = 0` and `v = 1/2`. -/
theorem claim_C8_witness :
    (0 : ℚ) ≤ 0 ∧ (0 : ℚ) < 1 ∧ (0 : ℚ) < 1/2 ∧
    (contemplation_min ≤ RitualStateMachine.get_contemplation_delay 0 ∧
     RitualStateMachine.get_contemplation_delay 0 ≤ contemplation_max ∧
     RitualStateMachine.get_contemplation_delay 0 <
       RitualStateMachine.get_contemplation_delay (1/2)) :=
  ⟨by norm_num, by norm_num, by norm_num,
   claim_C8 0 (1/2) (by norm_num) (by norm_num) (by norm_num)⟩

/-- Invariants of a successful run of transitions: the history grows by one
event per step, the session id is stable, the empty run is the identity, a
non-empty run establishes that the last history event carries the current
state, and the current state is the target of the last step. -/
theorem runTransitions_inv (steps : List (RitualState × Option Payload × Nat)) :
    ∀ m m' : RitualStateMachine, runTransitions m steps = some m' →
      m'.state_history.length = m.state_history.length + steps.length ∧
      m'.session_id = m.session_id ∧
      (steps = [] → m' = m) ∧
      (steps ≠ [] →
        ∀ e, m'.state_history.getLast? = some e → e.state = m'.current_state) ∧
      (∀ s, steps.getLast? = some s → m'.current_state = s.1) := by
  induction steps with
  | nil =>
    intro m m' h
    simp only [runTransitions, Option.some.injEq] at h
    subst h
    simp
  | cons s rest ih =>
    intro m m' h
    simp only [runTransitions] at h
    cases hstep : m.transition s.1 s.2.1 s.2.2 with
    | error e => rw [hstep] at h; cases h
    | ok r =>
      rw [hstep] at h
      obtain ⟨hr1, hr2, -⟩ := transition_ok_inv m s.1 s.2.1 s.2.2 r hstep
      obtain ⟨ihlen, ihsid, ihnil, ihlast, ihcur⟩ := ih r.1 m' h
      have hlen1 : r.1.state_history.length = m.state_history.length + 1 := by
        rw [hr1]; simp
      have hsid1 : r.1.session_id = m.session_id := by rw [hr1]
      have hcur1 : r.1.current_state = s.1 := by rw [hr1]
      have hinv1 : ∀ e, r.1.state_history.getLast? = some e →
          e.state = r.1.current_state := by
        intro e he
        rw [hr1] at he
        simp only [List.getLast?_concat, Option.some.injEq] at he
        rw [← he, hcur1]
      refine ⟨?_, ?_, ?_, ?_, ?_⟩
      · simp only [List.length_cons]
        omega
      · rw [ihsid, hsid1]
      · intro hc
        cases hc
      · intro _
        cases hrest : rest with
        | nil =>
          have hm : m' = r.1 := by
            subst hrest
            exact ihnil rfl
          rw [hm]
          exact hinv1
        | cons b l =>
          subst hrest
          exact ihlast (by simp)
      · intro st hst
        cases hrest : rest with
        | nil =>
          subst hrest
          simp only [List.getLast?_singleton, Option.some.injEq] at hst
          rw [ihnil rfl, hcur1, hst]
        | cons b l =>
          subst hrest
          rw [List.getLast?_cons_cons] at hst
          exact ihcur st hst

/-- C1 counterexample: construction emits no event into the history
(`__post_init__` only logs), so immediately after construction the history
is empty and after `n = 0` successful transitions `history_length` is `0`,
not `0 + 1`. -/
theorem claim_C1_counterexample :
    (mkRitualStateMachine "s0").state_history = [] ∧
    (mkRitualStateMachine "s0").get_state_info.history_length = 0 ∧
    ¬ (mkRitualStateMachine "s0").get_state_info.history_length = 0 + 1 :=
  ⟨rfl, rfl, by decide⟩

/-- C1 (amended): immediately after construction the history is empty
(construction only logs, it emits no initialization event), and for every
sequence of `n` successful transitions on a fresh machine the snapshot's
`history_length` equals `n` and `current_state` equals the state of the last
event in history (which is the target of the last successful transition). -/
theorem claim_C1 (sid : String) (steps : List (RitualState × Option Payload × Nat))
    (m' : RitualStateMachine)
    (h : runTransitions (mkRitualStateMachine sid) steps = some m') :
    (mkRitualStateMachine sid).state_history = [] ∧
    m'.get_state_info.history_length = steps.length ∧
    (∀ e, m'.state_history.getLast? = some e → e.state = m'.current_state) ∧
    (∀ s, steps.getLast? = some s → m'.current_state = s.1) := by
  obtain ⟨hlen, -, hnil, hlast, hcur⟩ :=
    runTransitions_inv steps (mkRitualStateMachine sid) m' h
  refine ⟨rfl, ?_, ?_, hcur⟩
  · simpa [RitualStateMachine.get_state_info, mkRitualStateMachine] using hlen
  · cases hs : steps with
    | nil =>
      intro e he
      rw [hnil hs] at he
      simp [mkRitualStateMachine] at he
    | cons b l =>
      exact hlast (by simp [hs])

/-- Witness for C1: the concrete two-step run `demoSteps` on a fresh machine
reaches `demoRunResult`, whose history has length 2 and whose last event
carries the current state `CONTEMPLATING`. -/
theorem claim_C1_witness :
    (runTransitions (mkRitualStateMachine "w1") demoSteps = some demoRunResult) ∧
    ((mkRitualStateMachine "w1").state_history = [] ∧
     demoRunResult.get_state_info.history_length = demoSteps.length ∧
     (∀ e, demoRunResult.state_history.getLast? = some e →
        e.state = demoRunResult.current_state) ∧
     (∀ s, demoSteps.getLast? = some s → demoRunResult.current_state = s.1)) :=
  ⟨rfl, claim_C1 "w1" demoSteps demoRunResult rfl⟩

/-- C10: in every reachable machine, every history event carries the
machine's own `session_id`, and the most recent event's `state` equals the
machine's `current_state` — since both `transition` and `force_reset` set
`current_state` to the state of the event they append, the latter says
precisely that each event's state equalled `current_state` at the moment it
was appended, for every event of every reachable history. -/
theorem claim_C10 (m : RitualStateMachine) (h : Reachable m) :
    (∀ e ∈ m.state_history, e.session_id = m.session_id) ∧
    (∀ e, m.state_history.getLast? = some e → e.state = m.current_state) := by
  induction h with
  | init sid => simp [mkRitualStateMachine]
  | step m t p now r hm hok ih =>
    obtain ⟨hr1, hr2, -⟩ := transition_ok_inv m t p now r hok
    rw [hr1]
    constructor
    · intro e he
      simp only [List.mem_append, List.mem_singleton] at he
      rcases he with he | he
      · exact ih.1 e he
      · rw [he]
    · intro e he
      simp only [List.getLast?_concat, Option.some.injEq] at he
      rw [← he]
  | reset m now hm ih =>
    have hfr : (m.force_reset now).1 =
        { m with
          current_state := .IDLE,
          state_history := m.state_history ++
            [⟨.IDLE, m.session_id, now, some [("forced", PayloadVal.bool true)]⟩] } :=
      rfl
    rw [hfr]
    constructor
    · intro e he
      simp only [List.mem_append, List.mem_singleton] at he
      rcases he with he | he
      · exact ih.1 e he
      · rw [he]
    · intro e he
      simp only [List.getLast?_concat, Option.some.injEq] at he
      rw [← he]
  | listen m cb hm ih =>
    simpa [RitualStateMachine.add_listener] using ih

/-- Witness for C10 at the concrete reachable machine obtained by a forced
reset of a fresh machine. -/
theorem claim_C10_witness :
    (∀ e ∈ ((mkRitualStateMachine "w2").force_reset 7).1.state_history,
      e.session_id = ((mkRitualStateMachine "w2").force_reset 7).1.session_id) ∧
    (∀ e, ((mkRitualStateMachine "w2").force_reset 7).1.state_history.getLast? =
        some e →
      e.state = ((mkRitualStateMachine "w2").force_reset 7).1.current_state) :=
  claim_C10 ((mkRitualStateMachine "w2").force_reset 7).1
    (Reachable.reset (mkRitualStateMachine "w2") 7 (Reachable.init "w2"))

/-- C7: on every successful transition the freshly created event is handed
to every registered listener, in registration order, each receiving the view
of the machine after `current_state` and `state_history` were updated; the
outcome list is a `map` over the listeners, so a callback that raises
contributes an `error` outcome without aborting the transition (which still
returns `ok`), without propagating, and without losing the outcomes of
listeners registered after it; the same delivery happens on `force_reset`. -/
theorem claim_C7 (m : RitualStateMachine) (t : RitualState)
    (p : Option Payload) (now : Nat)
    (h : t ∈ VALID_TRANSITIONS m.current_state) :
    (∃ m' e, m.transition t p now =
        .ok (m', e, m.listeners.map (fun l => l m'.view e)) ∧
      m'.current_state = t ∧ m'.state_history = m.state_history ++ [e] ∧
      m'.listeners = m.listeners) ∧
    (m.force_reset now).2.2 =
      m.listeners.map
        (fun l => l (m.force_reset now).1.view (m.force_reset now).2.1) ∧
    (m.force_reset now).1.state_history =
      m.state_history ++ [(m.force_reset now).2.1] := by
  refine ⟨?_, rfl, rfl⟩
  refine ⟨{ m with
      current_state := t,
      state_history := m.state_history ++ [⟨t, m.session_id, now, p⟩] },
    ⟨t, m.session_id, now, p⟩, ?_, rfl, rfl, rfl⟩
  rw [transition_ok m t p now h]
  rfl

/-- Witness for C7 on `demoMachine`, whose first listener always raises: the
transition still succeeds and the concrete outcome list is the failing
outcome followed by the success of the listener registered after it. -/
theorem claim_C7_witness :
    (RitualState.INVOKED ∈ VALID_TRANSITIONS demoMachine.current_state) ∧
    ((∃ m' e, demoMachine.transition .INVOKED none 0 =
        .ok (m', e, demoMachine.listeners.map (fun l => l m'.view e)) ∧
      m'.current_state = .INVOKED ∧
      m'.state_history = demoMachine.state_history ++ [e] ∧
      m'.listeners = demoMachine.listeners) ∧
     (demoMachine.force_reset 0).2.2 =
       demoMachine.listeners.map
         (fun l => l (demoMachine.force_reset 0).1.view
           (demoMachine.force_reset 0).2.1) ∧
     (demoMachine.force_reset 0).1.state_history =
       demoMachine.state_history ++ [(demoMachine.force_reset 0).2.1]) ∧
    demoMachine.transition .INVOKED none 0 = .ok
      ({ session_id := "s", current_state := .INVOKED,
         state_history := [⟨.INVOKED, "s", 0, none⟩],
         listeners := demoMachine.listeners },
       ⟨.INVOKED, "s", 0, none⟩,
       [.error "boom", .ok ()]) :=
  ⟨by decide, claim_C7 demoMachine .INVOKED none 0 (by decide), rfl⟩

/-- On the success path of the external call, `chatSteps` always reaches the
sleep computation and the final transitions: its sleep is exactly the
`remaining_delay`-guarded value, its result is the response, and the machine
ends in `COMPLETE` — for every starting machine state. -/
theorem chatSteps_ok (m : RitualStateMachine) (response : String)
    (u t : ℚ) (now : Nat) :
    (chatSteps m (.ok response) u t now).result = .ok response ∧
    (chatSteps m (.ok response) u t now).slept =
      (if RitualStateMachine.get_contemplation_delay u - t > 0
       then RitualStateMachine.get_contemplation_delay u - t else 0) ∧
    (chatSteps m (.ok response) u t now).machine.current_state = .COMPLETE := by
  rcases m with ⟨sid, cs, hist, ls⟩
  cases cs <;>
    simp [chatSteps, RitualStateMachine.is_accepting_input,
      RitualStateMachine.force_reset, RitualStateMachine.transition,
      VALID_TRANSITIONS, RitualStateMachine.notify_listeners]

/-- C5: in `chat`, for every drawn target delay and every measured elapsed
time of the external call, the artificial suspension equals
`target_delay - elapsed` when that difference is positive and zero
otherwise (`max (target - elapsed) 0`), and the resulting perceived latency
`elapsed + slept` is `max target elapsed`: the window is a floor, never a
ceiling, and a slow external call (`elapsed ≥ target`) adds no sleep and is
never shortened. -/
theorem claim_C5 (reg : Registry) (sid response : String)
    (u llm_time : ℚ) (now : Nat) :
    (chat reg sid (.ok response) u llm_time now).2.1 =
      max (RitualStateMachine.get_contemplation_delay u - llm_time) 0 ∧
    llm_time + (chat reg sid (.ok response) u llm_time now).2.1 =
      max (RitualStateMachine.get_contemplation_delay u) llm_time := by
  have hch : (chat reg sid (.ok response) u llm_time now).2.1 =
      (chatSteps (get_ritual_machine reg sid).1 (.ok response) u llm_time now).slept :=
    rfl
  rw [hch, (chatSteps_ok (get_ritual_machine reg sid).1 response u llm_time now).2.1]
  rcases le_or_lt (RitualStateMachine.get_contemplation_delay u) llm_time with hle | hlt
  · rw [if_neg (by linarith), max_eq_right (by linarith), max_eq_right hle]
    constructor <;> ring
  · rw [if_pos (by linarith), max_eq_left (by linarith), max_eq_left (le_of_lt hlt)]
    constructor <;> ring

/-- When the external call fails, `chatSteps` propagates the failure, leaves
the machine in `CONTEMPLATING` with the session id and listeners untouched,
and the only events appended are the (possibly forced-reset preceded)
`INVOKED` and `CONTEMPLATING` ones — no `REVEALING` or `COMPLETE` event. -/
theorem chatSteps_error (m : RitualStateMachine) (msg : String)
    (u t : ℚ) (now : Nat) :
    (chatSteps m (.error msg) u t now).result = .error msg ∧
    (chatSteps m (.error msg) u t now).slept = 0 ∧
    (chatSteps m (.error msg) u t now).machine.current_state = .CONTEMPLATING ∧
    (chatSteps m (.error msg) u t now).machine.session_id = m.session_id ∧
    (if m.is_accepting_input then
      (chatSteps m (.error msg) u t now).machine.state_history =
        m.state_history ++
          [⟨.INVOKED, m.session_id, now, none⟩,
           ⟨.CONTEMPLATING, m.session_id, now, none⟩]
    else
      (chatSteps m (.error msg) u t now).machine.state_history =
        m.state_history ++
          [⟨.IDLE, m.session_id, now, some [("forced", PayloadVal.bool true)]⟩,
           ⟨.INVOKED, m.session_id, now, none⟩,
           ⟨.CONTEMPLATING, m.session_id, now, none⟩]) := by
  rcases m with ⟨sid, cs, hist, ls⟩
  cases cs <;>
    simp [chatSteps, RitualStateMachine.is_accepting_input,
      RitualStateMachine.force_reset, RitualStateMachine.transition,
      VALID_TRANSITIONS, RitualStateMachine.notify_listeners]

/-- From a machine stuck in `CONTEMPLATING`, a `chatSteps` run with a
successful external call first force-resets (the machine is not accepting
input), then drives the full ritual to `COMPLETE` and returns the response:
the appended events are exactly the forced reset followed by the four
ritual transitions. -/
theorem chatSteps_recover (m : RitualStateMachine) (response : String)
    (u t : ℚ) (now : Nat) (h : m.current_state = .CONTEMPLATING) :
    (chatSteps m (.ok response) u t now).result = .ok response ∧
    (chatSteps m (.ok response) u t now).machine.current_state = .COMPLETE ∧
    (chatSteps m (.ok response) u t now).machine.state_history =
      m.state_history ++
        [⟨.IDLE, m.session_id, now, some [("forced", PayloadVal.bool true)]⟩,
         ⟨.INVOKED, m.session_id, now, none⟩,
         ⟨.CONTEMPLATING, m.session_id, now, none⟩,
         ⟨.REVEALING, m.session_id, now, some [("response", PayloadVal.str response)]⟩,
         ⟨.COMPLETE, m.session_id, now, none⟩] := by
  rcases m with ⟨sid, cs, hist, ls⟩
  simp only [RitualStateMachine.current_state] at h
  subst h
  simp [chatSteps, RitualStateMachine.is_accepting_input,
    RitualStateMachine.force_reset, RitualStateMachine.transition,
    VALID_TRANSITIONS, RitualStateMachine.notify_listeners]

/-- Looking up a session right after storing its machine returns that
machine and leaves the registry unchanged. -/
theorem get_ritual_machine_store (reg : Registry) (sid : String)
    (m : RitualStateMachine) :
    get_ritual_machine (reg.store sid m) sid = (m, reg.store sid m) := by
  simp [get_ritual_machine, Registry.store]

/-- C6: if the external call fails during a consultation, `chat` propagates
the failure to the caller with no `REVEALING` or `COMPLETE` event ever
appended, leaves the session's machine in the registry in `CONTEMPLATING`
(not accepting input, no rollback to `IDLE`), and the next consultation on
that session begins with a forced reset (its first appended event is the
`forced`-tagged `IDLE` event) and then completes normally. -/
theorem claim_C6 (reg : Registry) (sid msg response : String)
    (u t u' t' : ℚ) (now now' : Nat) :
    ∃ m, (chat reg sid (.error msg) u t now).1 sid = some m ∧
      (chat reg sid (.error msg) u t now).2.2 = .error msg ∧
      m.current_state = .CONTEMPLATING ∧
      m.is_accepting_input = false ∧
      (∀ e ∈ m.state_history.drop
          (get_ritual_machine reg sid).1.state_history.length,
        e.state ≠ .REVEALING ∧ e.state ≠ .COMPLETE) ∧
      ∃ m', (chat (chat reg sid (.error msg) u t now).1 sid (.ok response)
          u' t' now').1 sid = some m' ∧
        (chat (chat reg sid (.error msg) u t now).1 sid (.ok response)
          u' t' now').2.2 = .ok response ∧
        m'.current_state = .COMPLETE ∧
        m'.state_history = m.state_history ++
          [⟨.IDLE, m.session_id, now', some [("forced", PayloadVal.bool true)]⟩,
           ⟨.INVOKED, m.session_id, now', none⟩,
           ⟨.CONTEMPLATING, m.session_id, now', none⟩,
           ⟨.REVEALING, m.session_id, now',
             some [("response", PayloadVal.str response)]⟩,
           ⟨.COMPLETE, m.session_id, now', none⟩] := by
  obtain ⟨hres, -, hcur, hsid, hhist⟩ :=
    chatSteps_error (get_ritual_machine reg sid).1 msg u t now
  refine ⟨(chatSteps (get_ritual_machine reg sid).1 (.error msg) u t now).machine,
    ?_, hres, hcur, ?_, ?_, ?_⟩
  · simp [chat, Registry.store]
  · simp [RitualStateMachine.is_accepting_input, hcur]
  · intro e he
    by_cases hacc : (get_ritual_machine reg sid).1.is_accepting_input
    · rw [if_pos hacc] at hhist
      rw [hhist, List.drop_left] at he
      simp only [List.mem_cons, List.not_mem_nil, or_false] at he
      rcases he with rfl | rfl
      · exact ⟨by simp, by simp⟩
      · exact ⟨by simp, by simp⟩
    · rw [if_neg hacc] at hhist
      rw [hhist, List.drop_left] at he
      simp only [List.mem_cons, List.not_mem_nil, or_false] at he
      rcases he with rfl | rfl | rfl
      · exact ⟨by simp, by simp⟩
      · exact ⟨by simp, by simp⟩
      · exact ⟨by simp, by simp⟩
  · obtain ⟨hres2, hcur2, hhist2⟩ := chatSteps_recover
      (chatSteps (get_ritual_machine reg sid).1 (.error msg) u t now).machine
      response u' t' now' hcur
    have hget : get_ritual_machine
        ((get_ritual_machine reg sid).2.store sid
          (chatSteps (get_ritual_machine reg sid).1 (.error msg) u t now).machine)
        sid =
        ((chatSteps (get_ritual_machine reg sid).1 (.error msg) u t now).machine,
         (get_ritual_machine reg sid).2.store sid
           (chatSteps (get_ritual_machine reg sid).1 (.error msg) u t now).machine) :=
      get_ritual_machine_store _ _ _
    refine ⟨(chatSteps
        (chatSteps (get_ritual_machine reg sid).1 (.error msg) u t now).machine
        (.ok response) u' t' now').machine, ?_, ?_, hcur2, ?_⟩
    · simp [chat, hget, Registry.store]
    · simp only [chat, hget]
      exact hres2
    · rw [hhist2, hsid]

/-- Witness for C6 at concrete inputs: a first consultation of session `s1`
on the empty registry whose external call fails, followed by a successful
retry. -/
theorem claim_C6_witness :
    ∃ m, (chat emptyRegistry "s1" (.error "down") 0 0 0).1 "s1" = some m ∧
      (chat emptyRegistry "s1" (.error "down") 0 0 0).2.2 = .error "down" ∧
      m.current_state = .CONTEMPLATING ∧
      m.is_accepting_input = false ∧
      (∀ e ∈ m.state_history.drop
          (get_ritual_machine emptyRegistry "s1").1.state_history.length,
        e.state ≠ .REVEALING ∧ e.state ≠ .COMPLETE) ∧
      ∃ m', (chat (chat emptyRegistry "s1" (.error "down") 0 0 0).1 "s1"
          (.ok "answer") 0 0 1).1 "s1" = some m' ∧
        (chat (chat emptyRegistry "s1" (.error "down") 0 0 0).1 "s1"
          (.ok "answer") 0 0 1).2.2 = .ok "answer" ∧
        m'.current_state = .COMPLETE ∧
        m'.state_history = m.state_history ++
          [⟨.IDLE, m.session_id, 1, some [("forced", PayloadVal.bool true)]⟩,
           ⟨.INVOKED, m.session_id, 1, none⟩,
           ⟨.CONTEMPLATING, m.session_id, 1, none⟩,
           ⟨.REVEALING, m.session_id, 1,
             some [("response", PayloadVal.str "answer")]⟩,
           ⟨.COMPLETE, m.session_id, 1, none⟩] :=
  claim_C6 emptyRegistry "s1" "down" "answer" 0 0 0 0 0 1

end Oracle
